import Mathlib

/-!
Shallow embedding of the CesboAstraManagerWebUI discovery engine
(`src/App/instance_manager.py`, `src/App/config_manager.py`,
`src/App/proxy_router.py`) and proofs about its specification.

Python dictionaries are modelled as association lists with
insertion-order semantics (overwriting an existing key keeps its
position, new keys are appended, exactly like CPython dicts).
Time values (`time.time()`, timestamps, TTLs) are modelled as integers;
only differences and comparisons of them occur in the code.
-/

namespace AstraManager

/-- An instance status as stored by the engine: the Python code uses the
string values "Online" and "Offline" and no others. -/
inductive Status where
  | online
  | offline
deriving DecidableEq, Repr

/-- One row of the State Store, the Python dict
`\x7b'addr': .., 'version': .., 'status': ..\x7d` built in
`perform_update`. -/
structure Instance where
  addr : String
  version : String
  status : Status
deriving DecidableEq, Repr

/-- The value part of the dicts returned by `_get_updated_instance_data`
(`version` and `status`, without the address key). -/
structure InstData where
  version : String
  status : Status
deriving DecidableEq, Repr

/-- The JSON payload of a successful health probe; the engine only ever
reads its optional `version` field (`result.get('version', 'unknown')`). -/
structure Payload where
  version? : Option String
deriving DecidableEq, Repr

/-- `payload.get('version', 'unknown')` from the source. -/
def Payload.getVersion (p : Payload) : String :=
  p.version?.getD "unknown"

/-- An explicitly configured server entry (`config_manager.Instance`:
a validated address plus port). -/
structure Server where
  address : String
  port : Nat
deriving DecidableEq, Repr

/-- The configuration fields of `AppConfig` consumed by the discovery
engine. -/
structure AppConfig where
  instance_host : String
  start_port : Nat
  end_port : Nat
  servers : List Server
  scan_timeout : Nat
  cache_ttl : Int
  instance_alive_cache_ttl : Int
  cached_instances : List Instance
  cache_timestamp : Int
deriving DecidableEq, Repr

/-- A scan target: the tuple `(host, port, srv_type)` built by
`_get_target_addresses`; `kind` is the string `'list'` for explicitly
configured servers and `'autoscan'` for port-sweep targets. -/
structure Target where
  host : String
  port : Nat
  kind : String
deriving DecidableEq, Repr

/-- The f-string `f'\x7bhost\x7d:\x7bport\x7d'` used both by
`check_instance_alive` and `perform_update`. -/
def addrString (host : String) (port : Nat) : String :=
  host ++ ":" ++ toString port

/-- Address of a scan target. -/
def Target.addr (t : Target) : String :=
  addrString t.host t.port

/-- Address of a configured server. -/
def Server.addr (s : Server) : String :=
  addrString s.address s.port

/-! ### Python dict model -/

/-- Lookup in a Python dict modelled as an association list. -/
def dlookup {κ α : Type} [DecidableEq κ] : List (κ × α) → κ → Option α
  | [], _ => none
  | (k, v) :: rest, key => if k = key then some v else dlookup rest key

/-- `d[key] = val` on a Python dict: overwriting an existing key keeps
its position, a fresh key is appended at the end. -/
def dinsert {κ α : Type} [DecidableEq κ] : List (κ × α) → κ → α → List (κ × α)
  | [], key, val => [(key, val)]
  | (k, v) :: rest, key, val =>
      if k = key then (k, val) :: rest else (k, v) :: dinsert rest key val

/-- `key in d` on a Python dict. -/
def dmem {κ α : Type} [DecidableEq κ] (d : List (κ × α)) (k : κ) : Bool :=
  (dlookup d k).isSome

/-- `list(d.values())` on a Python dict. -/
def dvalues {κ α : Type} (d : List (κ × α)) : List α :=
  d.map Prod.snd

/-! ### Target resolution (`_get_target_addresses`) -/

/-- `_get_target_addresses`: explicit server list if non-empty, else the
inclusive port sweep `range(start_port, end_port + 1)` over the scan
host. -/
def getTargetAddresses (config : AppConfig) : List Target :=
  if config.servers ≠ [] then
    config.servers.map (fun srv => ⟨srv.address, srv.port, "list"⟩)
  else
    (List.range' config.start_port (config.end_port + 1 - config.start_port)).map
      (fun p => ⟨config.instance_host, p, "autoscan"⟩)

/-! ### Reconciliation (`_get_updated_instance_data`, `perform_update`) -/

/-- `old_instances.get(addr, \x7b\x7d).get('version', 'unknown')`. -/
def oldVersionOf (old : List (String × Instance)) (addr : String) : String :=
  match dlookup old addr with
  | some inst => inst.version
  | none => "unknown"

/-- `_get_updated_instance_data`: decides the new record for one target
from the probe result and the previous state; returns `none` where the
Python code returns the empty (falsy) dict. -/
def getUpdatedInstanceData (addr : String) (srvType : String)
    (result : Option Payload) (old : List (String × Instance)) : Option InstData :=
  match result with
  | none =>
      if dmem old addr ∨ srvType ≠ "autoscan" then
        some ⟨oldVersionOf old addr, Status.offline⟩
      else
        none
  | some payload =>
      some ⟨payload.getVersion, Status.online⟩

/-- `\x7binst['addr']: inst for inst in self.instances\x7d`. -/
def buildOldDict (instances : List Instance) : List (String × Instance) :=
  instances.foldl (fun d inst => dinsert d inst.addr inst) []

/-- A probe oracle for one scan cycle: the result of
`check_instance_alive(host, port, timeout)` for each target, `none`
meaning unreachable. -/
def ProbeFn : Type := String → Nat → Option Payload

/-- One fold step of the reconciliation loop in `perform_update`:
`if instance_data: temp_instances[addr] = instance_data`. -/
def reconcileStep (old : List (String × Instance)) (probe : ProbeFn)
    (temp : List (String × InstData)) (t : Target) : List (String × InstData) :=
  match getUpdatedInstanceData t.addr t.kind (probe t.host t.port) old with
  | some data => dinsert temp t.addr data
  | none => temp

/-- The reconciliation loop of `perform_update` over all targets. -/
def reconcile (targets : List Target) (probe : ProbeFn)
    (old : List (String × Instance)) : List (String × InstData) :=
  targets.foldl (reconcileStep old probe) []

/-- `[\x7b'addr': addr, **data\x7d for addr, data in temp_instances.items()]`. -/
def instancesOfTemp (temp : List (String × InstData)) : List Instance :=
  temp.map (fun p => ⟨p.1, p.2.version, p.2.status⟩)

/-- `le` on records by address, the sort key
`lambda x: x['addr']` used in `_check_for_changes_and_notify`. -/
def addrLE (a b : Instance) : Prop := a.addr ≤ b.addr

instance : DecidableRel addrLE := fun a b => by
  unfold addrLE; infer_instance

instance : IsTotal Instance addrLE := ⟨fun a b => le_total a.addr b.addr⟩

instance : IsTrans Instance addrLE := ⟨fun _ _ _ h1 h2 => le_trans h1 h2⟩

/-- `list.sort(key=lambda x: x['addr'])`. -/
def sortByAddr (l : List Instance) : List Instance :=
  List.insertionSort addrLE l

/-- The change test of `_check_for_changes_and_notify`: sort both record
lists by address and compare. -/
def hasChanged (oldValues newList : List Instance) : Bool :=
  decide (sortByAddr newList ≠ sortByAddr oldValues)

/-- The observable outcome of one scan cycle (`perform_update` followed
by `_check_for_changes_and_notify`). -/
structure UpdateResult where
  instances : List Instance
  notified : Bool
  saveScheduled : Bool
  cachedInstances : Option (List Instance)
deriving DecidableEq, Repr

/-- `perform_update`: snapshot the old state keyed by address, resolve
targets, reconcile every probe result, replace the store, then notify,
update the configuration cache and schedule a debounced save exactly
when the sorted record lists differ. -/
def performUpdate (config : AppConfig) (probe : ProbeFn)
    (instances : List Instance) : UpdateResult :=
  let oldDict := buildOldDict instances
  let targets := getTargetAddresses config
  let temp := reconcile targets probe oldDict
  let newInstances := instancesOfTemp temp
  let changed := hasChanged (dvalues oldDict) newInstances
  { instances := newInstances
    notified := changed
    saveScheduled := changed
    cachedInstances := if changed then some newInstances else none }

/-- A sequence of scan cycles (`async_update_loop` body repeated), each
with its own probe outcomes. -/
def runCycles (config : AppConfig) (probes : List ProbeFn)
    (instances : List Instance) : List Instance :=
  probes.foldl (fun st probe => (performUpdate config probe st).instances) instances

/-- `manual_update`: one full cycle, then the snapshot returned by
`get_instances` (a copy of the new store, equal as a value). -/
def manualUpdate (config : AppConfig) (probe : ProbeFn)
    (instances : List Instance) : UpdateResult × List Instance :=
  let r := performUpdate config probe instances
  (r, r.instances)

/-! ### Probe result cache (`check_instance_alive`) -/

/-- The cache `_instance_alive_cache`:
`(host, port) -> (result, timestamp)`. -/
def AliveCache : Type := List ((String × Nat) × (Option Payload × Int))

/-- Outcome of `check_instance_alive`: the returned result, the cache
afterwards, and how many network calls were issued. -/
structure AliveResult where
  result : Option Payload
  cache : AliveCache
  calls : Nat

/-- `check_instance_alive(host, port, scan_timeout)`: return a cached
result younger than the configured TTL without a network call; otherwise
issue exactly one call (whose outcome `net` is `none` on connection
error, non-200 status or unparseable JSON) and cache it at the current
time. -/
def checkInstanceAlive (ttl : Int) (cache : AliveCache) (now : Int)
    (net : Option Payload) (host : String) (port : Nat) : AliveResult :=
  let key := (host, port)
  match dlookup cache key with
  | some (cachedResult, timestamp) =>
      if now - timestamp < ttl then
        ⟨cachedResult, cache, 0⟩
      else
        ⟨net, dinsert cache key (net, now), 1⟩
  | none =>
      ⟨net, dinsert cache key (net, now), 1⟩

/-! ### Startup snapshot restore (`load_initial_cache`) -/

/-- `load_initial_cache`: replace the (initially empty) store with the
configuration snapshot only when
`instances and timestamp and (time.time() - timestamp < cache_ttl)`;
the two Python truthiness tests require a non-empty list and a non-zero
timestamp. -/
def loadInitialCache (config : AppConfig) (now : Int)
    (store : List Instance) : List Instance :=
  if config.cached_instances ≠ [] ∧ config.cache_timestamp ≠ 0 ∧
      now - config.cache_timestamp < config.cache_ttl then
    config.cached_instances
  else
    store

/-! ### Configuration loading (`config_manager._load_config`) -/

/-- A raw `servers` entry as it appears in the JSON file: either a JSON
object with an address and a port, or some other JSON value. -/
inductive RawItem where
  | dict (address : String) (port : Int)
  | other
deriving DecidableEq, Repr

/-- The raw fields of the configuration file that participate in
validation; the remaining fields carry no cross-field constraints
relevant to the claims. -/
structure RawAppConfig where
  instance_host : String
  start_port : Int
  end_port : Int
  servers : List RawItem
deriving DecidableEq, Repr

/-- Pydantic validation of one `Instance` entry (`config_manager.Instance`
with its `validate_address` field validator, abstracted over the
host-grammar check `addrOk` for localhost/IP/domain); `port` must lie in
`1..65535`; a non-dict entry never validates. -/
def parseServerItem (addrOk : String → Bool) : RawItem → Option Server
  | RawItem.dict address port =>
      if addrOk address ∧ 1 ≤ port ∧ port ≤ 65535 then
        some ⟨address, port.toNat⟩
      else
        none
  | RawItem.other => none

/-- The loop body of the `validate_servers` field validator. Because the
validator is registered without `mode='before'`, Pydantic v2 runs it
after the items of `servers` have already been validated into
`Instance` objects, so every item takes the `isinstance(item, Instance)`
branch and is kept; the quiet-drop `except ValidationError` branch is
unreachable at this point. -/
def validateServersLoop (v : List Server) : List Server :=
  v.foldl (fun validServers item => validServers ++ [item]) []

/-- The validated configuration produced by `AppConfig.model_validate`
on the raw file data (the fields participating in validation). -/
structure ConfigCore where
  instance_host : String
  start_port : Nat
  end_port : Nat
  servers : List Server
deriving DecidableEq, Repr

/-- Pydantic validation of the whole `servers` list: every item must
validate as an `Instance`, otherwise the `List[Instance]` field — and
with it the whole model — fails validation. -/
def parseServers (addrOk : String → Bool) : List RawItem → Option (List Server)
  | [] => some []
  | item :: rest =>
      match parseServerItem addrOk item, parseServers addrOk rest with
      | some srv, some srvs => some (srv :: srvs)
      | _, _ => none

/-- `AppConfig.model_validate(data)`: field validation of
`instance_host` and of every `servers` item, the `ge=1 le=65535` bounds
on the ports, the `validate_servers` field validator, and the
`validate_ports` model validator (`start_port < end_port`); any failure
raises `ValidationError`, modelled as `none` — no partially validated
configuration is ever produced. -/
def validateAppConfig (addrOk : String → Bool)
    (raw : RawAppConfig) : Option ConfigCore :=
  if ¬ addrOk raw.instance_host then none
  else if ¬ (1 ≤ raw.start_port ∧ raw.start_port ≤ 65535) then none
  else if ¬ (1 ≤ raw.end_port ∧ raw.end_port ≤ 65535) then none
  else
    match parseServers addrOk raw.servers with
    | none => none
    | some servers =>
        if raw.start_port ≥ raw.end_port then none
        else
          some ⟨raw.instance_host, raw.start_port.toNat, raw.end_port.toNat,
                validateServersLoop servers⟩

/-- The built-in defaults `AppConfig.model_validate(\x7b\x7d)` (the field
defaults of `AppConfig` that participate in validation). -/
def defaultConfigCore : ConfigCore :=
  ⟨"127.0.0.1", 9200, 9300, []⟩

/-- The state of the configuration file as seen by `_load_config`. -/
inductive FileState where
  | missing
  | malformed
  | parsed (raw : RawAppConfig)
deriving DecidableEq, Repr

/-- Outcome of `_load_config`: the configuration put into effect and
whether a defaults file was written. -/
structure LoadOutcome where
  config : ConfigCore
  wroteDefaults : Bool
deriving DecidableEq, Repr

/-- `_load_config`: a missing file is created with the defaults; a file
whose content fails `json.loads` or `AppConfig.model_validate` falls
back to the defaults without raising. -/
def loadConfigFile (addrOk : String → Bool) : FileState → LoadOutcome
  | FileState.missing => ⟨defaultConfigCore, true⟩
  | FileState.malformed => ⟨defaultConfigCore, false⟩
  | FileState.parsed raw =>
      match validateAppConfig addrOk raw with
      | some config => ⟨config, false⟩
      | none => ⟨defaultConfigCore, false⟩

/-! ### Proxy error mapping (`proxy_router._handle_proxy_http_request`) -/

/-- The outcome of the upstream `http_client.post` call: a timeout, a
connection error, another unexpected error, or an HTTP response with a
status code and a body that either parses as JSON or does not. -/
inductive UpstreamOutcome where
  | timeout
  | connectError
  | otherError
  | response (statusCode : Nat) (jsonBody : Option String)
deriving DecidableEq, Repr

/-- The body of the reply returned to the UI client: either the relayed
upstream JSON document or a structured error payload. -/
inductive ProxyBody where
  | relayedJson (body : String)
  | errorPayload (upstreamStatus : Option Nat)
deriving DecidableEq, Repr

/-- `_handle_proxy_http_request`: timeouts map to 504, connection errors
to 503, unexpected errors to 500; an upstream HTTP response is relayed
with its own status code, its JSON body if it parses and an error
payload carrying the upstream status otherwise. -/
def handleProxyHttpRequest (outcome : UpstreamOutcome) : ProxyBody × Nat :=
  match outcome with
  | UpstreamOutcome.timeout => (ProxyBody.errorPayload none, 504)
  | UpstreamOutcome.connectError => (ProxyBody.errorPayload none, 503)
  | UpstreamOutcome.otherError => (ProxyBody.errorPayload none, 500)
  | UpstreamOutcome.response statusCode jsonBody =>
      match jsonBody with
      | some body => (ProxyBody.relayedJson body, statusCode)
      | none => (ProxyBody.errorPayload (some statusCode), statusCode)

/-! ### Snapshot aliasing (`get_instances`) -/

/-- A reference to a record dict on the Python heap. -/
def Ref : Type := Nat

instance : DecidableEq Ref := fun a b => instDecidableEqNat a b

instance : OfNat Ref n := ⟨(n : Nat)⟩

/-- A fragment of the Python heap: the record dicts, addressed by
position. -/
def Heap : Type := List Instance

/-- Dereference a record. -/
def readRef (heap : Heap) (r : Ref) : Instance :=
  List.getD heap r ⟨"", "", Status.offline⟩

/-- The engine state: `self.instances` is a Python list of references
to record dicts. -/
structure EngineState where
  heap : Heap
  instanceRefs : List Ref

/-- The record list an observer of the engine actually sees. -/
def engineView (s : EngineState) : List Instance :=
  s.instanceRefs.map (readRef s.heap)

/-- `get_instances`: `self.instances.copy()` — a new list object holding
the same record references (a shallow copy). -/
def getInstancesRefs (s : EngineState) : List Ref :=
  s.instanceRefs

/-- In-place mutation of one record dict reached through a reference,
e.g. `snapshot[i]['version'] = v` performed by a caller on the returned
snapshot. -/
def mutateRecord (s : EngineState) (r : Ref) (f : Instance → Instance) :
    EngineState :=
  ⟨List.set s.heap r (f (readRef s.heap r)), s.instanceRefs⟩

/-! ### Dictionary lemmas -/

/-- Addresses are pairwise distinct in a record list. -/
def addrNodup (l : List Instance) : Prop :=
  l.Pairwise (fun a b => a.addr ≠ b.addr)

instance : DecidablePred addrNodup := fun l => by
  unfold addrNodup
  infer_instance

/-- Keys are pairwise distinct in a dict. -/
def dNodup {κ α : Type} [DecidableEq κ] (d : List (κ × α)) : Prop :=
  d.Pairwise (fun a b => a.1 ≠ b.1)

theorem dlookup_dinsert {κ α : Type} [DecidableEq κ] (d : List (κ × α))
    (k k' : κ) (v : α) :
    dlookup (dinsert d k v) k' = if k = k' then some v else dlookup d k' := by
  induction d with
  | nil =>
      by_cases h : k = k' <;> simp [dinsert, dlookup, h]
  | cons hd tl ih =>
      obtain ⟨hk, hv⟩ := hd
      by_cases h1 : hk = k
      · subst h1
        by_cases h2 : hk = k' <;> simp [dinsert, dlookup, h2]
      · have h3 : dinsert ((hk, hv) :: tl) k v = (hk, hv) :: dinsert tl k v := by
          rw [dinsert, if_neg h1]
        rw [h3]
        by_cases h2 : hk = k'
        · have h4 : ¬ k = k' := fun h => h1 (h2.trans h.symm)
          simp only [dlookup, if_pos h2, if_neg h4]
        · simp only [dlookup, if_neg h2]
          exact ih

theorem dlookup_mem {κ α : Type} [DecidableEq κ] {d : List (κ × α)}
    {k : κ} {v : α} (h : dlookup d k = some v) : (k, v) ∈ d := by
  induction d with
  | nil => simp [dlookup] at h
  | cons hd tl ih =>
      obtain ⟨hk, hv⟩ := hd
      by_cases h1 : hk = k
      · subst h1
        simp [dlookup] at h
        simp [h]
      · simp [dlookup, h1] at h
        exact List.mem_cons_of_mem _ (ih h)

theorem fst_mem_dinsert {κ α : Type} [DecidableEq κ] {d : List (κ × α)}
    {k : κ} {v : α} {b : κ × α} (h : b ∈ dinsert d k v) :
    b.1 = k ∨ ∃ c ∈ d, b.1 = c.1 := by
  induction d with
  | nil => simp [dinsert] at h; simp [h]
  | cons hd tl ih =>
      obtain ⟨hk, hv⟩ := hd
      by_cases h1 : hk = k
      · subst h1
        simp [dinsert] at h
        rcases h with h | h
        · exact Or.inr ⟨(hk, hv), by simp, by simp [h]⟩
        · exact Or.inr ⟨b, by simp [h], rfl⟩
      · simp [dinsert, h1] at h
        rcases h with h | h
        · exact Or.inr ⟨(hk, hv), by simp, by simp [h]⟩
        · rcases ih h with h2 | ⟨c, hc, h2⟩
          · exact Or.inl h2
          · exact Or.inr ⟨c, List.mem_cons_of_mem _ hc, h2⟩

theorem dNodup_dinsert {κ α : Type} [DecidableEq κ] {d : List (κ × α)}
    (k : κ) (v : α) (h : dNodup d) : dNodup (dinsert d k v) := by
  induction d with
  | nil => simp [dinsert, dNodup]
  | cons hd tl ih =>
      obtain ⟨hk, hv⟩ := hd
      unfold dNodup at h
      rw [List.pairwise_cons] at h
      obtain ⟨hhead, htail⟩ := h
      by_cases h1 : hk = k
      · subst h1
        unfold dNodup
        rw [dinsert, if_pos rfl, List.pairwise_cons]
        exact ⟨hhead, htail⟩
      · unfold dNodup
        rw [dinsert, if_neg h1, List.pairwise_cons]
        refine ⟨?_, ih htail⟩
        intro b hb
        rcases fst_mem_dinsert hb with h2 | ⟨c, hc, h2⟩
        · simpa [h2] using h1
        · rw [h2]
          exact hhead c hc

theorem dinsert_of_lookup_none {κ α : Type} [DecidableEq κ]
    {d : List (κ × α)} {k : κ} (v : α) (h : dlookup d k = none) :
    dinsert d k v = d ++ [(k, v)] := by
  induction d with
  | nil => simp [dinsert]
  | cons hd tl ih =>
      obtain ⟨hk, hv⟩ := hd
      by_cases h1 : hk = k
      · simp [dlookup, h1] at h
      · simp [dlookup, h1] at h
        simp [dinsert, h1, ih h]

theorem dlookup_append {κ α : Type} [DecidableEq κ] (d1 d2 : List (κ × α))
    (k : κ) :
    dlookup (d1 ++ d2) k =
      match dlookup d1 k with
      | some v => some v
      | none => dlookup d2 k := by
  induction d1 with
  | nil => simp [dlookup]
  | cons hd tl ih =>
      obtain ⟨hk, hv⟩ := hd
      by_cases h1 : hk = k <;> simp [dlookup, h1, ih]

theorem buildOldDict_aux (l : List Instance) :
    ∀ acc, (∀ i ∈ l, dlookup acc i.addr = none) →
      l.Pairwise (fun a b => a.addr ≠ b.addr) →
      l.foldl (fun d inst => dinsert d inst.addr inst) acc =
        acc ++ l.map (fun i => (i.addr, i)) := by
  induction l with
  | nil => intro acc _ _; simp
  | cons i tl ih =>
      intro acc hacc hnd
      rw [List.pairwise_cons] at hnd
      obtain ⟨hhead, htail⟩ := hnd
      have hfresh : dlookup acc i.addr = none := hacc i (by simp)
      have hstep : dinsert acc i.addr i = acc ++ [(i.addr, i)] :=
        dinsert_of_lookup_none i hfresh
      simp only [List.foldl_cons, hstep]
      rw [ih (acc ++ [(i.addr, i)]) ?_ htail]
      · simp
      · intro j hj
        rw [dlookup_append, hacc j (List.mem_cons_of_mem _ hj)]
        simp [dlookup, hhead j hj]

theorem buildOldDict_eq_map {l : List Instance} (h : addrNodup l) :
    buildOldDict l = l.map (fun i => (i.addr, i)) := by
  unfold buildOldDict
  rw [buildOldDict_aux l [] (by intro i _; simp [dlookup]) h]
  simp

theorem dvalues_map_self (l : List Instance) :
    dvalues (l.map (fun i => (i.addr, i))) = l := by
  induction l with
  | nil => rfl
  | cons i tl ih => simpa [dvalues] using ih

theorem dlookup_map_pair {κ α β : Type} [DecidableEq κ] (f : κ → α → β)
    (l : List (κ × α)) (k : κ) :
    dlookup (l.map (fun p => (p.1, f p.1 p.2))) k =
      (dlookup l k).map (f k) := by
  induction l with
  | nil => simp [dlookup]
  | cons hd tl ih =>
      obtain ⟨hk, hv⟩ := hd
      by_cases h1 : hk = k
      · subst h1
        simp [dlookup]
      · simp [dlookup, h1, ih]

/-! ### Claim C1: per-target reconciliation -/

/-- C1: reconciliation of one target. A successful probe yields
`version = reported version, status = Online`; a failed probe yields
`version = previous version or "unknown", status = Offline` when the
address was previously known or the target is explicitly configured
(`srv_type` is not `autoscan`), and no record at all for a
previously-unknown autoscan target; a version present in the previous
state is retained unchanged on the transition to Offline. -/
theorem claim1_reconciliation (addr srvType : String) (result : Option Payload)
    (old : List (String × Instance)) :
    (∀ p, result = some p →
       getUpdatedInstanceData addr srvType result old =
         some ⟨p.getVersion, Status.online⟩)
  ∧ (result = none → (dmem old addr = true ∨ srvType ≠ "autoscan") →
       getUpdatedInstanceData addr srvType result old =
         some ⟨oldVersionOf old addr, Status.offline⟩)
  ∧ (result = none → dmem old addr = false → srvType = "autoscan" →
       getUpdatedInstanceData addr srvType result old = none)
  ∧ (∀ inst, dlookup old addr = some inst → result = none →
       getUpdatedInstanceData addr srvType result old =
         some ⟨inst.version, Status.offline⟩) := by
  refine ⟨?_, ?_, ?_, ?_⟩
  · intro p hp
    subst hp
    rfl
  · intro h0 hcond
    subst h0
    unfold getUpdatedInstanceData
    rw [if_pos]
    rcases hcond with h | h
    · exact Or.inl (by simpa using h)
    · exact Or.inr h
  · intro h0 hmem hkind
    subst h0
    unfold getUpdatedInstanceData
    rw [if_neg]
    simp [hmem, hkind]
  · intro inst hl h0
    subst h0
    unfold getUpdatedInstanceData
    rw [if_pos (Or.inl (by simp [dmem, hl]))]
    unfold oldVersionOf
    rw [hl]

/-- C1 witness: an autoscan target that was Online with version 1.2.3
goes unreachable; the record keeps version 1.2.3 and becomes Offline. -/
theorem claim1_witness :
    getUpdatedInstanceData "10.0.0.1:9100" "autoscan" none
        [("10.0.0.1:9100", ⟨"10.0.0.1:9100", "1.2.3", Status.online⟩)] =
      some ⟨"1.2.3", Status.offline⟩ :=
  (claim1_reconciliation "10.0.0.1:9100" "autoscan" none
      [("10.0.0.1:9100", ⟨"10.0.0.1:9100", "1.2.3", Status.online⟩)]).2.2.2
    ⟨"10.0.0.1:9100", "1.2.3", Status.online⟩ (by decide) rfl

/-! ### Claim C7: probe result cache -/

/-- C7: a cached probe result (success or unreachable) younger than the
TTL is returned with no network call and an unchanged cache; a missing
or stale entry issues exactly one call whose outcome is cached at the
current time. -/
theorem claim7_probe_cache (ttl : Int) (cache : AliveCache) (now : Int)
    (net : Option Payload) (host : String) (port : Nat) :
    (∀ res ts, dlookup cache (host, port) = some (res, ts) → now - ts < ttl →
       checkInstanceAlive ttl cache now net host port = ⟨res, cache, 0⟩)
  ∧ (dlookup cache (host, port) = none →
       checkInstanceAlive ttl cache now net host port =
         ⟨net, dinsert cache (host, port) (net, now), 1⟩)
  ∧ (∀ res ts, dlookup cache (host, port) = some (res, ts) →
       ¬ now - ts < ttl →
       checkInstanceAlive ttl cache now net host port =
         ⟨net, dinsert cache (host, port) (net, now), 1⟩) := by
  refine ⟨?_, ?_, ?_⟩
  · intro res ts hl hfresh
    simp [checkInstanceAlive, hl, hfresh]
  · intro hl
    simp [checkInstanceAlive, hl]
  · intro res ts hl hstale
    simp [checkInstanceAlive, hl, hstale]

/-- C7 witness: a fresh cached Unreachable result is returned without a
network call. -/
theorem claim7_witness :
    checkInstanceAlive 5 [(("10.0.0.1", 9100), (none, 10))] 12
      (some ⟨some "9.9"⟩) "10.0.0.1" 9100 =
      ⟨none, [(("10.0.0.1", 9100), (none, 10))], 0⟩ :=
  (claim7_probe_cache 5 [(("10.0.0.1", 9100), (none, 10))] 12
      (some ⟨some "9.9"⟩) "10.0.0.1" 9100).1 none 10 (by decide) (by decide)

/-! ### Claim C8: startup snapshot restore -/

/-- Counterexample configuration for C8: a non-empty snapshot whose
timestamp is 0 (Python-falsy). -/
def c8Config : AppConfig :=
  ⟨"127.0.0.1", 9200, 9300, [], 5, 10, 5,
   [⟨"10.0.0.1:9100", "1.0", Status.online⟩], 0⟩

/-- C8 counterexample: at time 5 with TTL 10, the snapshot with
timestamp 0 satisfies `now - timestamp < ttl`, yet `load_initial_cache`
discards it because a zero timestamp is falsy in Python, so the claimed
if-and-only-if fails. -/
theorem claim8_counterexample :
    (5 : Int) - c8Config.cache_timestamp < c8Config.cache_ttl
  ∧ c8Config.cached_instances ≠ []
  ∧ loadInitialCache c8Config 5 [] = []
  ∧ loadInitialCache c8Config 5 [] ≠ c8Config.cached_instances := by
  refine ⟨by decide, by decide, by decide, by decide⟩

/-- C8 amended: the store after startup equals the snapshot exactly when
the stored timestamp is non-zero and younger than the TTL, and is empty
otherwise (an empty snapshot is never loaded, which is observationally
identical to loading it). -/
theorem claim8_amended (config : AppConfig) (now : Int) :
    loadInitialCache config now [] =
      if config.cache_timestamp ≠ 0 ∧
          now - config.cache_timestamp < config.cache_ttl then
        config.cached_instances
      else
        [] := by
  unfold loadInitialCache
  by_cases h1 : config.cached_instances = []
  · split_ifs <;> simp_all
  · split_ifs <;> simp_all

/-! ### Claim C4: proxy error mapping -/

/-- C4 counterexample: an upstream JSON response with status 500 is
relayed with status 500, not mapped to 502. -/
theorem claim4_counterexample :
    handleProxyHttpRequest (UpstreamOutcome.response 500 (some "body")) =
      (ProxyBody.relayedJson "body", 500)
  ∧ (500 : Nat) ≠ 502 :=
  ⟨rfl, by decide⟩

/-- C4 amended: a timeout yields 504, a connection failure 503, any
other unexpected error 500; every upstream HTTP response — 2xx or not —
is relayed with its own status code, with its JSON body when it parses
and a structured error payload carrying the upstream status when it
does not. -/
theorem claim4_amended :
    handleProxyHttpRequest UpstreamOutcome.timeout =
      (ProxyBody.errorPayload none, 504)
  ∧ handleProxyHttpRequest UpstreamOutcome.connectError =
      (ProxyBody.errorPayload none, 503)
  ∧ handleProxyHttpRequest UpstreamOutcome.otherError =
      (ProxyBody.errorPayload none, 500)
  ∧ (∀ statusCode body,
       handleProxyHttpRequest (UpstreamOutcome.response statusCode (some body)) =
         (ProxyBody.relayedJson body, statusCode))
  ∧ (∀ statusCode,
       handleProxyHttpRequest (UpstreamOutcome.response statusCode none) =
         (ProxyBody.errorPayload (some statusCode), statusCode)) :=
  ⟨rfl, rfl, rfl, fun _ _ => rfl, fun _ => rfl⟩

/-! ### Claim C5: configuration loading -/

theorem parseServers_eq_none {addrOk : String → Bool} {items : List RawItem}
    (h : ∃ item ∈ items, parseServerItem addrOk item = none) :
    parseServers addrOk items = none := by
  induction items with
  | nil => simp at h
  | cons item rest ih =>
      rcases h with ⟨j, hj, hnone⟩
      rcases List.mem_cons.mp hj with rfl | hj2
      · simp [parseServers, hnone]
      · rw [parseServers, ih ⟨j, hj2, hnone⟩]
        cases parseServerItem addrOk item <;> rfl

theorem validateAppConfig_ge_none {addrOk : String → Bool}
    {raw : RawAppConfig} (hge : raw.start_port ≥ raw.end_port) :
    validateAppConfig addrOk raw = none := by
  unfold validateAppConfig
  split_ifs
  any_goals rfl
  cases hps : parseServers addrOk raw.servers with
  | none => rfl
  | some servers => simp [hge]

theorem validateAppConfig_badServer_none {addrOk : String → Bool}
    {raw : RawAppConfig}
    (h : ∃ item ∈ raw.servers, parseServerItem addrOk item = none) :
    validateAppConfig addrOk raw = none := by
  unfold validateAppConfig
  split_ifs
  any_goals rfl
  all_goals simp [parseServers_eq_none h]

/-- C5: a missing configuration file is created with the defaults; a
malformed file falls back to the defaults without raising; a file whose
ports violate `start_port < end_port` falls back to the defaults; a
file in which any `servers` entry fails validation rejects the whole
configuration and falls back to the defaults — the valid entries are
never partially applied. -/
theorem claim5_config_load (addrOk : String → Bool) (raw : RawAppConfig) :
    loadConfigFile addrOk FileState.missing = ⟨defaultConfigCore, true⟩
  ∧ loadConfigFile addrOk FileState.malformed = ⟨defaultConfigCore, false⟩
  ∧ (raw.start_port ≥ raw.end_port →
       loadConfigFile addrOk (FileState.parsed raw) = ⟨defaultConfigCore, false⟩)
  ∧ ((∃ item ∈ raw.servers, parseServerItem addrOk item = none) →
       loadConfigFile addrOk (FileState.parsed raw) = ⟨defaultConfigCore, false⟩) := by
  refine ⟨rfl, rfl, ?_, ?_⟩
  · intro hge
    simp [loadConfigFile, validateAppConfig_ge_none hge]
  · intro hbad
    simp [loadConfigFile, validateAppConfig_badServer_none hbad]

/-- C5 witness: a file with inverted ports and a file with one valid and
one invalid server entry both load as the untouched defaults. -/
theorem claim5_witness :
    loadConfigFile (fun _ => true)
        (FileState.parsed ⟨"127.0.0.1", 9300, 9200, []⟩) =
      ⟨defaultConfigCore, false⟩
  ∧ loadConfigFile (fun _ => true)
        (FileState.parsed ⟨"127.0.0.1", 9200, 9300,
          [RawItem.dict "10.0.0.1" 9100, RawItem.dict "10.0.0.2" 0]⟩) =
      ⟨defaultConfigCore, false⟩ :=
  ⟨(claim5_config_load (fun _ => true) ⟨"127.0.0.1", 9300, 9200, []⟩).2.2.1
      (by decide),
   (claim5_config_load (fun _ => true) ⟨"127.0.0.1", 9200, 9300,
        [RawItem.dict "10.0.0.1" 9100, RawItem.dict "10.0.0.2" 0]⟩).2.2.2
      ⟨RawItem.dict "10.0.0.2" 0, by decide, by decide⟩⟩

/-! ### Claim C6: snapshot aliasing -/

/-- A concrete engine state: one record dict on the heap, referenced by
the store. -/
def c6State : EngineState :=
  ⟨[⟨"10.0.0.1:9100", "1.0", Status.online⟩], [(0 : Ref)]⟩

/-- C6 failing input: `get_instances` returns `self.instances.copy()`, a
shallow copy holding references to the very record dicts of the engine;
mutating one record through the returned snapshot changes what the
engine subsequently reports, contradicting the independence claim. -/
theorem claim6_shallow_copy_bug :
    getInstancesRefs c6State = [(0 : Ref)]
  ∧ engineView (mutateRecord c6State (0 : Ref)
        (fun inst => ⟨inst.addr, "2.0", inst.status⟩)) ≠ engineView c6State := by
  refine ⟨rfl, by decide⟩

/-! ### Claim C9: target resolution -/

/-- C9: with a non-empty explicit server list, resolution returns
exactly the configured (address, port) pairs tagged with the explicit
origin (spelled `list` in the code), ignoring the port range; with an
empty list it returns one autoscan target on the scan host for every
port from `start_port` through `end_port` inclusive. -/
theorem claim9_resolver (config : AppConfig) :
    (config.servers ≠ [] →
       getTargetAddresses config =
         config.servers.map (fun srv => ⟨srv.address, srv.port, "list"⟩))
  ∧ (config.servers = [] →
       (∀ p : Nat,
          (⟨config.instance_host, p, "autoscan"⟩ : Target) ∈
              getTargetAddresses config ↔
            config.start_port ≤ p ∧ p ≤ config.end_port)
     ∧ ∀ t ∈ getTargetAddresses config,
         t.host = config.instance_host ∧ t.kind = "autoscan") := by
  constructor
  · intro h
    unfold getTargetAddresses
    rw [if_pos h]
  · intro h
    constructor
    · intro p
      unfold getTargetAddresses
      rw [if_neg (by simp [h])]
      simp [List.mem_map, List.mem_range'_1, Target.mk.injEq]
      omega
    · intro t ht
      unfold getTargetAddresses at ht
      rw [if_neg (by simp [h])] at ht
      rcases List.mem_map.mp ht with ⟨q, _, rfl⟩
      exact ⟨rfl, rfl⟩

/-- Explicit-branch configuration for the C9 witness. -/
def c9CfgExplicit : AppConfig :=
  ⟨"127.0.0.1", 9200, 9300, [⟨"10.0.0.1", 9100⟩], 5, 10, 5, [], 0⟩

/-- Autoscan-branch configuration for the C9 witness. -/
def c9CfgAuto : AppConfig :=
  ⟨"127.0.0.1", 9200, 9300, [], 5, 10, 5, [], 0⟩

/-! ### Sorting and change-detection lemmas -/

/-- Strict order on records by address. -/
def addrLT (a b : Instance) : Prop := a.addr < b.addr

instance : IsAntisymm Instance addrLT :=
  ⟨fun _ _ h1 h2 => absurd h2 (lt_asymm h1)⟩

theorem sortByAddr_sorted_lt {l : List Instance} (h : addrNodup l) :
    List.Sorted addrLT (sortByAddr l) := by
  have hs : List.Sorted addrLE (sortByAddr l) :=
    List.sorted_insertionSort addrLE l
  have hperm : List.Perm (sortByAddr l) l := List.perm_insertionSort addrLE l
  have hn : (sortByAddr l).Pairwise (fun a b => a.addr ≠ b.addr) :=
    (List.Perm.pairwise_iff (fun hab => Ne.symm hab) hperm).mpr h
  exact (hs.and hn).imp (fun hab => lt_of_le_of_ne hab.1 hab.2)

theorem sortByAddr_eq_iff_perm {a b : List Instance}
    (ha : addrNodup a) (hb : addrNodup b) :
    sortByAddr a = sortByAddr b ↔ List.Perm a b := by
  constructor
  · intro h
    have p1 : List.Perm a (sortByAddr a) := (List.perm_insertionSort addrLE a).symm
    have p2 : List.Perm (sortByAddr b) b := List.perm_insertionSort addrLE b
    exact p1.trans (h ▸ p2)
  · intro hperm
    have hp : List.Perm (sortByAddr a) (sortByAddr b) :=
      ((List.perm_insertionSort addrLE a).trans hperm).trans
        (List.perm_insertionSort addrLE b).symm
    exact List.eq_of_perm_of_sorted hp (sortByAddr_sorted_lt ha)
      (sortByAddr_sorted_lt hb)

/-- The reconciliation decision taken for one target of a cycle. -/
def decisionFor (old : List (String × Instance)) (probe : ProbeFn)
    (t : Target) : Option InstData :=
  getUpdatedInstanceData t.addr t.kind (probe t.host t.port) old

theorem foldl_reconcileStep_congr {old1 old2 : List (String × Instance)}
    {probe : ProbeFn} :
    ∀ (ts : List Target) (acc : List (String × InstData)),
      (∀ t ∈ ts, decisionFor old2 probe t = decisionFor old1 probe t) →
      ts.foldl (reconcileStep old2 probe) acc =
        ts.foldl (reconcileStep old1 probe) acc := by
  intro ts
  induction ts with
  | nil => intro acc _; rfl
  | cons t rest ih =>
      intro acc h
      rw [List.foldl_cons, List.foldl_cons]
      have hstep : reconcileStep old2 probe acc t = reconcileStep old1 probe acc t := by
        unfold reconcileStep
        rw [show getUpdatedInstanceData t.addr t.kind (probe t.host t.port) old2 =
            getUpdatedInstanceData t.addr t.kind (probe t.host t.port) old1
          from h t (List.mem_cons_self t rest)]
      rw [hstep]
      exact ih _ (fun u hu => h u (List.mem_cons_of_mem _ hu))

theorem dlookup_foldl_of_none (old : List (String × Instance))
    (probe : ProbeFn) (a : String) :
    ∀ (ts : List Target) (acc : List (String × InstData)),
      (∀ t ∈ ts, t.addr = a → decisionFor old probe t = none) →
      dlookup (ts.foldl (reconcileStep old probe) acc) a = dlookup acc a := by
  intro ts
  induction ts with
  | nil => intro acc _; rfl
  | cons t rest ih =>
      intro acc h
      rw [List.foldl_cons,
        ih _ (fun u hu he => h u (List.mem_cons_of_mem _ hu) he)]
      unfold reconcileStep
      cases hd : getUpdatedInstanceData t.addr t.kind (probe t.host t.port) old with
      | none => rfl
      | some d =>
          rw [dlookup_dinsert, if_neg]
          intro he
          have := h t (List.mem_cons_self t rest) he
          rw [show decisionFor old probe t =
              getUpdatedInstanceData t.addr t.kind (probe t.host t.port) old
            from rfl, hd] at this
          exact Option.noConfusion this

theorem dlookup_foldl_of_notmem (old : List (String × Instance))
    (probe : ProbeFn) (a : String) :
    ∀ (ts : List Target) (acc : List (String × InstData)),
      (∀ t ∈ ts, t.addr ≠ a) →
      dlookup (ts.foldl (reconcileStep old probe) acc) a = dlookup acc a := by
  intro ts
  induction ts with
  | nil => intro acc _; rfl
  | cons t rest ih =>
      intro acc h
      rw [List.foldl_cons, ih _ (fun u hu => h u (List.mem_cons_of_mem _ hu))]
      unfold reconcileStep
      cases getUpdatedInstanceData t.addr t.kind (probe t.host t.port) old with
      | none => rfl
      | some d =>
          rw [dlookup_dinsert, if_neg (h t (List.mem_cons_self t rest))]

theorem dlookup_foldl_of_some (old : List (String × Instance))
    (probe : ProbeFn) (a : String) (d : InstData) :
    ∀ (ts : List Target) (acc : List (String × InstData)),
      (∀ t ∈ ts, t.addr = a → decisionFor old probe t = some d) →
      (∃ t ∈ ts, t.addr = a) →
      dlookup (ts.foldl (reconcileStep old probe) acc) a = some d := by
  intro ts
  induction ts with
  | nil => intro acc _ hex; simp at hex
  | cons t rest ih =>
      intro acc hall hex
      rw [List.foldl_cons]
      by_cases hta : t.addr = a
      · have hdec := hall t (List.mem_cons_self t rest) hta
        have hstep : dlookup (reconcileStep old probe acc t) a = some d := by
          unfold reconcileStep
          rw [show getUpdatedInstanceData t.addr t.kind (probe t.host t.port) old =
              decisionFor old probe t from rfl, hdec, dlookup_dinsert, if_pos hta]
        by_cases hex2 : ∃ u ∈ rest, u.addr = a
        · exact ih _ (fun u hu he => hall u (List.mem_cons_of_mem _ hu) he) hex2
        · rw [dlookup_foldl_of_notmem old probe a rest _
            (fun u hu => fun he => hex2 ⟨u, hu, he⟩)]
          exact hstep
      · rcases hex with ⟨u, hu, hue⟩
        rcases List.mem_cons.mp hu with rfl | hu2
        · exact absurd hue hta
        · exact ih _ (fun v hv he => hall v (List.mem_cons_of_mem _ hv) he)
            ⟨u, hu2, hue⟩

theorem dNodup_foldl_reconcileStep (old : List (String × Instance))
    (probe : ProbeFn) :
    ∀ (ts : List Target) (acc : List (String × InstData)),
      dNodup acc → dNodup (ts.foldl (reconcileStep old probe) acc) := by
  intro ts
  induction ts with
  | nil => intro acc h; exact h
  | cons t rest ih =>
      intro acc h
      rw [List.foldl_cons]
      apply ih
      unfold reconcileStep
      cases getUpdatedInstanceData t.addr t.kind (probe t.host t.port) old with
      | none => exact h
      | some d => exact dNodup_dinsert _ _ h

theorem reconcile_dNodup (targets : List Target) (probe : ProbeFn)
    (old : List (String × Instance)) : dNodup (reconcile targets probe old) :=
  dNodup_foldl_reconcileStep old probe targets [] List.Pairwise.nil

theorem instancesOfTemp_addrNodup {temp : List (String × InstData)}
    (h : dNodup temp) : addrNodup (instancesOfTemp temp) := by
  unfold addrNodup instancesOfTemp
  rw [List.pairwise_map]
  exact h

theorem dlookup_buildOldDict_instancesOfTemp {temp : List (String × InstData)}
    (h : dNodup temp) (a : String) :
    dlookup (buildOldDict (instancesOfTemp temp)) a =
      (dlookup temp a).map
        (fun d => (⟨a, d.version, d.status⟩ : Instance)) := by
  rw [buildOldDict_eq_map (instancesOfTemp_addrNodup h)]
  unfold instancesOfTemp
  rw [List.map_map]
  exact dlookup_map_pair
    (fun k d => (⟨k, d.version, d.status⟩ : Instance)) temp a

theorem performUpdate_instances_eq (config : AppConfig) (probe : ProbeFn)
    (s : List Instance) :
    (performUpdate config probe s).instances =
      instancesOfTemp (reconcile (getTargetAddresses config) probe
        (buildOldDict s)) := rfl

theorem performUpdate_notified_eq (config : AppConfig) (probe : ProbeFn)
    (s : List Instance) :
    (performUpdate config probe s).notified =
      hasChanged (dvalues (buildOldDict s))
        (instancesOfTemp (reconcile (getTargetAddresses config) probe
          (buildOldDict s))) := rfl

theorem performUpdate_saveScheduled_eq (config : AppConfig) (probe : ProbeFn)
    (s : List Instance) :
    (performUpdate config probe s).saveScheduled =
      (performUpdate config probe s).notified := rfl

theorem performUpdate_addrNodup (config : AppConfig) (probe : ProbeFn)
    (s : List Instance) : addrNodup (performUpdate config probe s).instances :=
  instancesOfTemp_addrNodup
    (reconcile_dNodup (getTargetAddresses config) probe (buildOldDict s))

/-- A scan cycle notifies exactly when the reconciled record set is not
a permutation of the previous one, assuming the previous state carries
no duplicate address (an invariant of every state the engine writes). -/
theorem performUpdate_notified_iff (config : AppConfig) (probe : ProbeFn)
    (s : List Instance) (hs : addrNodup s) :
    (performUpdate config probe s).notified = true ↔
      ¬ List.Perm (performUpdate config probe s).instances s := by
  rw [performUpdate_notified_eq, ← performUpdate_instances_eq]
  have hvals : dvalues (buildOldDict s) = s := by
    rw [buildOldDict_eq_map hs, dvalues_map_self]
  rw [hvals]
  unfold hasChanged
  rw [decide_eq_true_iff]
  exact not_congr (sortByAddr_eq_iff_perm (performUpdate_addrNodup config probe s) hs)

/-- A probe oracle under which every target is unreachable. -/
def probeNone : ProbeFn := fun _ _ => none

/-! ### Second-run idempotence -/

theorem getUpdated_none_eq (addr srvType : String)
    (old : List (String × Instance)) :
    getUpdatedInstanceData addr srvType none old =
      (if dmem old addr ∨ srvType ≠ "autoscan" then
        some ⟨oldVersionOf old addr, Status.offline⟩
      else none) := rfl

theorem decision_second_run (config : AppConfig) (probe : ProbeFn)
    (s : List Instance)
    (hcons : ∀ t ∈ getTargetAddresses config, ∀ u ∈ getTargetAddresses config,
       t.addr = u.addr →
       decisionFor (buildOldDict s) probe u = decisionFor (buildOldDict s) probe t) :
    ∀ t ∈ getTargetAddresses config,
      decisionFor (buildOldDict (instancesOfTemp
          (reconcile (getTargetAddresses config) probe (buildOldDict s))))
          probe t =
        decisionFor (buildOldDict s) probe t := by
  intro t ht
  have hnd1 : dNodup (reconcile (getTargetAddresses config) probe (buildOldDict s)) :=
    reconcile_dNodup (getTargetAddresses config) probe (buildOldDict s)
  cases hp : probe t.host t.port with
  | some p =>
      unfold decisionFor getUpdatedInstanceData
      rw [hp]
  | none =>
      have heq1 : decisionFor (buildOldDict s) probe t =
          (if dmem (buildOldDict s) t.addr ∨ t.kind ≠ "autoscan" then
            some ⟨oldVersionOf (buildOldDict s) t.addr, Status.offline⟩
          else none) := by
        unfold decisionFor
        rw [hp, getUpdated_none_eq]
      have heq2 : decisionFor (buildOldDict (instancesOfTemp
          (reconcile (getTargetAddresses config) probe (buildOldDict s))))
          probe t =
          (if dmem (buildOldDict (instancesOfTemp
              (reconcile (getTargetAddresses config) probe (buildOldDict s))))
              t.addr ∨ t.kind ≠ "autoscan" then
            some ⟨oldVersionOf (buildOldDict (instancesOfTemp
              (reconcile (getTargetAddresses config) probe (buildOldDict s))))
              t.addr, Status.offline⟩
          else none) := by
        unfold decisionFor
        rw [hp, getUpdated_none_eq]
      by_cases hc : dmem (buildOldDict s) t.addr ∨ t.kind ≠ "autoscan"
      · have hd1 : decisionFor (buildOldDict s) probe t =
            some ⟨oldVersionOf (buildOldDict s) t.addr, Status.offline⟩ := by
          rw [heq1, if_pos hc]
        have hall : ∀ u ∈ getTargetAddresses config, u.addr = t.addr →
            decisionFor (buildOldDict s) probe u =
              some ⟨oldVersionOf (buildOldDict s) t.addr, Status.offline⟩ :=
          fun u hu he => (hcons t ht u hu he.symm).trans hd1
        have hlook1 : dlookup (reconcile (getTargetAddresses config) probe
            (buildOldDict s)) t.addr =
            some ⟨oldVersionOf (buildOldDict s) t.addr, Status.offline⟩ :=
          dlookup_foldl_of_some (buildOldDict s) probe t.addr _
            (getTargetAddresses config) [] hall ⟨t, ht, rfl⟩
        have hlook2 : dlookup (buildOldDict (instancesOfTemp
            (reconcile (getTargetAddresses config) probe (buildOldDict s))))
            t.addr =
            some ⟨t.addr, oldVersionOf (buildOldDict s) t.addr, Status.offline⟩ := by
          rw [dlookup_buildOldDict_instancesOfTemp hnd1, hlook1]
          rfl
        rw [heq2, hd1, if_pos (Or.inl (by simp [dmem, hlook2]))]
        unfold oldVersionOf
        rw [hlook2]
        rfl
      · have hd1 : decisionFor (buildOldDict s) probe t = none := by
          rw [heq1, if_neg hc]
        push_neg at hc
        obtain ⟨hcm, hck⟩ := hc
        have hall : ∀ u ∈ getTargetAddresses config, u.addr = t.addr →
            decisionFor (buildOldDict s) probe u = none :=
          fun u hu he => (hcons t ht u hu he.symm).trans hd1
        have hlook1 : dlookup (reconcile (getTargetAddresses config) probe
            (buildOldDict s)) t.addr = none := by
          unfold reconcile
          rw [dlookup_foldl_of_none (buildOldDict s) probe t.addr
            (getTargetAddresses config) [] hall]
          rfl
        have hlook2 : dlookup (buildOldDict (instancesOfTemp
            (reconcile (getTargetAddresses config) probe (buildOldDict s))))
            t.addr = none := by
          rw [dlookup_buildOldDict_instancesOfTemp hnd1, hlook1]
          rfl
        rw [heq2, hd1, if_neg (by simp [dmem, hlook2, hck])]

theorem reconcile_second_run (config : AppConfig) (probe : ProbeFn)
    (s : List Instance)
    (hcons : ∀ t ∈ getTargetAddresses config, ∀ u ∈ getTargetAddresses config,
       t.addr = u.addr →
       decisionFor (buildOldDict s) probe u = decisionFor (buildOldDict s) probe t) :
    reconcile (getTargetAddresses config) probe
        (buildOldDict (instancesOfTemp
          (reconcile (getTargetAddresses config) probe (buildOldDict s)))) =
      reconcile (getTargetAddresses config) probe (buildOldDict s) :=
  foldl_reconcileStep_congr (getTargetAddresses config) []
    (decision_second_run config probe s hcons)

/-! ### Claim C3: change detection and idempotent no-op -/

/-- C3: a cycle notifies and schedules a persistence write exactly when
the reconciled record set differs from the previous one up to order
(assuming the previous state has pairwise distinct addresses and that
targets sharing an address string take the same reconciliation
decision — both hold for every state and target list the program can
produce); consequently a second cycle with identical probe results
changes nothing, notifies nothing and schedules no write. -/
theorem claim3_change_detection (config : AppConfig) (probe : ProbeFn)
    (s : List Instance) (hs : addrNodup s)
    (hcons : ∀ t ∈ getTargetAddresses config, ∀ u ∈ getTargetAddresses config,
       t.addr = u.addr →
       decisionFor (buildOldDict s) probe u = decisionFor (buildOldDict s) probe t) :
    ((performUpdate config probe s).notified = true ↔
       ¬ List.Perm (performUpdate config probe s).instances s)
  ∧ (performUpdate config probe s).saveScheduled =
      (performUpdate config probe s).notified
  ∧ (performUpdate config probe (performUpdate config probe s).instances).instances =
      (performUpdate config probe s).instances
  ∧ (performUpdate config probe (performUpdate config probe s).instances).notified =
      false
  ∧ (performUpdate config probe
        (performUpdate config probe s).instances).saveScheduled = false := by
  have hrec := reconcile_second_run config probe s hcons
  have hinst2 : (performUpdate config probe
      (performUpdate config probe s).instances).instances =
      (performUpdate config probe s).instances := by
    rw [performUpdate_instances_eq config probe
      ((performUpdate config probe s).instances),
      performUpdate_instances_eq config probe s, hrec]
  have hnot2 : (performUpdate config probe
      (performUpdate config probe s).instances).notified = false := by
    rw [performUpdate_notified_eq, performUpdate_instances_eq config probe s,
      hrec, buildOldDict_eq_map (instancesOfTemp_addrNodup
        (reconcile_dNodup (getTargetAddresses config) probe (buildOldDict s))),
      dvalues_map_self]
    simp [hasChanged]
  refine ⟨performUpdate_notified_iff config probe s hs, rfl, hinst2, hnot2, ?_⟩
  rw [performUpdate_saveScheduled_eq, hnot2]

/-- Configuration for the C3 witness. -/
def c3Config : AppConfig :=
  ⟨"127.0.0.1", 9200, 9300, [⟨"10.0.0.1", 9100⟩], 5, 10, 5, [], 0⟩

/-- C3 witness: starting from the empty store with one explicit server
that is unreachable, the first cycle materialises the Offline record
(and notifies), and the second identical cycle is a silent no-op. -/
theorem claim3_witness :
    ((performUpdate c3Config probeNone []).notified = true ↔
       ¬ List.Perm (performUpdate c3Config probeNone []).instances [])
  ∧ (performUpdate c3Config probeNone
      (performUpdate c3Config probeNone []).instances).notified = false :=
  ⟨(claim3_change_detection c3Config probeNone [] (by decide) (by decide)).1,
   (claim3_change_detection c3Config probeNone [] (by decide) (by decide)).2.2.2.1⟩

/-! ### Claim C10: manual refresh -/

/-- C10: `manual_update` performs one full scan cycle, returns the
snapshot of the new store, and — exactly like a scheduler-driven
cycle — fires the update notifier and schedules the debounced save
precisely when the cycle changed the instance set. -/
theorem claim10_manual_update (config : AppConfig) (probe : ProbeFn)
    (s : List Instance) (hs : addrNodup s) :
    (manualUpdate config probe s).2 = (performUpdate config probe s).instances
  ∧ (manualUpdate config probe s).1 = performUpdate config probe s
  ∧ ((manualUpdate config probe s).1.notified = true ↔
       ¬ List.Perm (manualUpdate config probe s).2 s)
  ∧ (manualUpdate config probe s).1.saveScheduled =
      (manualUpdate config probe s).1.notified := by
  refine ⟨rfl, rfl, ?_, rfl⟩
  exact performUpdate_notified_iff config probe s hs

/-- Configuration for the C10 witness. -/
def c10Config : AppConfig :=
  ⟨"127.0.0.1", 9200, 9300, [⟨"10.0.0.3", 9105⟩], 5, 10, 5, [], 0⟩

/-- C10 witness: the manual refresh at a concrete configuration. -/
theorem claim10_witness :
    ((manualUpdate c10Config probeNone []).1.notified = true ↔
      ¬ List.Perm (manualUpdate c10Config probeNone []).2 []) :=
  (claim10_manual_update c10Config probeNone [] (by decide)).2.2.1

/-! ### Claim C2: explicit servers are permanently represented -/

theorem dlookup_isSome_foldl_mono (old : List (String × Instance))
    (probe : ProbeFn) (a : String) :
    ∀ (ts : List Target) (acc : List (String × InstData)),
      (dlookup acc a).isSome = true →
      (dlookup (ts.foldl (reconcileStep old probe) acc) a).isSome = true := by
  intro ts
  induction ts with
  | nil => intro acc h; exact h
  | cons t rest ih =>
      intro acc h
      rw [List.foldl_cons]
      apply ih
      unfold reconcileStep
      cases getUpdatedInstanceData t.addr t.kind (probe t.host t.port) old with
      | none => exact h
      | some d =>
          rw [dlookup_dinsert]
          by_cases ht : t.addr = a <;> simp [ht, h]

theorem dlookup_isSome_of_decision_some (old : List (String × Instance))
    (probe : ProbeFn) :
    ∀ (ts : List Target) (acc : List (String × InstData)) (t : Target),
      t ∈ ts →
      (getUpdatedInstanceData t.addr t.kind (probe t.host t.port) old).isSome = true →
      (dlookup (ts.foldl (reconcileStep old probe) acc) t.addr).isSome = true := by
  intro ts
  induction ts with
  | nil => intro acc t ht; simp at ht
  | cons hd rest ih =>
      intro acc t ht hdec
      rw [List.foldl_cons]
      rcases List.mem_cons.mp ht with rfl | hmem
      · apply dlookup_isSome_foldl_mono
        unfold reconcileStep
        cases hd0 : getUpdatedInstanceData t.addr t.kind (probe t.host t.port) old with
        | none => rw [hd0] at hdec; simp at hdec
        | some d => rw [dlookup_dinsert]; simp
      · exact ih _ t hmem hdec

theorem performUpdate_keeps_explicit (config : AppConfig) (probe : ProbeFn)
    (s : List Instance) (srv : Server) (hsrv : srv ∈ config.servers) :
    ∃ inst ∈ (performUpdate config probe s).instances, inst.addr = srv.addr := by
  have hne : config.servers ≠ [] := by
    intro h
    rw [h] at hsrv
    simp at hsrv
  have htmem : (⟨srv.address, srv.port, "list"⟩ : Target) ∈ getTargetAddresses config := by
    unfold getTargetAddresses
    rw [if_pos hne]
    exact List.mem_map.mpr ⟨srv, hsrv, rfl⟩
  have hdec : (getUpdatedInstanceData (Target.addr ⟨srv.address, srv.port, "list"⟩)
      (Target.kind ⟨srv.address, srv.port, "list"⟩)
      (probe srv.address srv.port) (buildOldDict s)).isSome = true := by
    unfold getUpdatedInstanceData
    cases hp : probe srv.address srv.port with
    | some p => simp
    | none =>
        rw [if_pos (Or.inr (show ("list" : String) ≠ "autoscan" by decide))]
        simp
  have hlook := dlookup_isSome_of_decision_some (buildOldDict s) probe
    (getTargetAddresses config) [] ⟨srv.address, srv.port, "list"⟩ htmem hdec
  rcases Option.isSome_iff_exists.mp hlook with ⟨d, hd⟩
  refine ⟨⟨Server.addr srv, d.version, d.status⟩, ?_, rfl⟩
  show ⟨Server.addr srv, d.version, d.status⟩ ∈
    instancesOfTemp (reconcile (getTargetAddresses config) probe (buildOldDict s))
  exact List.mem_map.mpr ⟨(Server.addr srv, d), dlookup_mem hd, rfl⟩

/-- C2: every explicitly configured address is present in the store
after every completed scan cycle — with Online or Offline status — no
matter how every probe of it turned out; in particular no sequence of
cycles ever removes it. -/
theorem claim2_explicit_permanence (config : AppConfig) (srv : Server)
    (hsrv : srv ∈ config.servers) :
    (∀ (probe : ProbeFn) (s : List Instance),
       ∃ inst ∈ (performUpdate config probe s).instances,
         inst.addr = srv.addr ∧
         (inst.status = Status.online ∨ inst.status = Status.offline))
  ∧ (∀ (probes : List ProbeFn) (s : List Instance), probes ≠ [] →
       ∃ inst ∈ runCycles config probes s, inst.addr = srv.addr) := by
  constructor
  · intro probe s
    rcases performUpdate_keeps_explicit config probe s srv hsrv with ⟨inst, hmem, haddr⟩
    exact ⟨inst, hmem, haddr, by cases inst.status <;> simp⟩
  · intro probes s hne
    rcases List.eq_nil_or_concat probes with rfl | ⟨ps, p, rfl⟩
    · exact absurd rfl hne
    · unfold runCycles
      rw [List.concat_eq_append, List.foldl_append]
      simp only [List.foldl_cons, List.foldl_nil]
      exact performUpdate_keeps_explicit config p _ srv hsrv

/-- Configuration for the C2 witness: one explicit server. -/
def c2Config : AppConfig :=
  ⟨"127.0.0.1", 9200, 9300, [⟨"10.0.0.1", 9100⟩], 5, 10, 5, [], 0⟩

/-- C2 witness: the explicit server survives a cycle in which its probe
failed. -/
theorem claim2_witness :
    ∃ inst ∈ (performUpdate c2Config probeNone []).instances,
      inst.addr = Server.addr ⟨"10.0.0.1", 9100⟩ ∧
      (inst.status = Status.online ∨ inst.status = Status.offline) :=
  (claim2_explicit_permanence c2Config ⟨"10.0.0.1", 9100⟩ (by decide)).1
    probeNone []

/-- C9 witness: both resolver branches at concrete configurations. -/
theorem claim9_witness :
    getTargetAddresses c9CfgExplicit =
      c9CfgExplicit.servers.map (fun srv => ⟨srv.address, srv.port, "list"⟩)
  ∧ ((⟨"127.0.0.1", 9205, "autoscan"⟩ : Target) ∈ getTargetAddresses c9CfgAuto ↔
       c9CfgAuto.start_port ≤ 9205 ∧ 9205 ≤ c9CfgAuto.end_port) :=
  ⟨(claim9_resolver c9CfgExplicit).1 (by decide),
   ((claim9_resolver c9CfgAuto).2 rfl).1 9205⟩

end AstraManager
